import Mathlib

/-!
Shallow embedding of `alphainspect/utils.py`, function `cumulative_returns`
(lines 93-181), together with the inner per-fund loop `_sub_portfolio_returns`
(imported there from `alphainspect._nb`, whose source is not part of this
repository snapshot and is therefore modelled from the spec).

Modelling choices:
* a numpy float64 cell is modelled as `Option ℚ`: `none` is IEEE NaN, `some q`
  a finite value.  The source detects NaN with the `x == x` trick
  (`np.where(returns == returns, returns, 1.0)`), which maps to `Option.getD`.
* a 2-D float array is a list of rows; scalar parameters (`init_cash`,
  `risk_free`, benchmark entries) are plain `ℚ`.
* `np.round(·, 5)` is decimal rounding to 5 places with ties to even.
* the only numpy failure reachable in `cumulative_returns` before the inner
  loop is `np.concatenate` on arrays with different row counts (line 156);
  the embedding returns `Except.error` there, mirroring the raised
  `ValueError`.  Likewise the broadcast of `out.mean(axis=1)` against
  `(benchmark + 1).cumprod()` (line 179) requires equal lengths.
-/

namespace AlphaInspect

/-- A NaN-able float matrix: rows of `Option ℚ`, `none` = NaN. -/
abbrev NMat := List (List (Option ℚ))

/-- A NaN-free float matrix. -/
abbrev QMat := List (List ℚ)

/-- Integer rounding with ties to even, as used by `np.round`. -/
def roundTiesEven (x : ℚ) : ℤ :=
  if x - (⌊x⌋ : ℚ) < 1/2 then ⌊x⌋
  else if 1/2 < x - (⌊x⌋ : ℚ) then ⌊x⌋ + 1
  else if ⌊x⌋ % 2 = 0 then ⌊x⌋ else ⌊x⌋ + 1

/-- `np.round(x, 5)`: round to 5 decimal places, ties to even. -/
def round5 (x : ℚ) : ℚ := (roundTiesEven (x * 100000) : ℚ) / 100000

/-- `np.nansum(np.abs(row))`: sum of absolute values, NaN entries counted
as 0 (a NaN contributes nothing to `nansum`). -/
def nansumAbs (row : List (Option ℚ)) : ℚ :=
  (row.map (fun x => |x.getD 0|)).sum

/-- Line 154: `weights_cash = 1 - np.round(np.nansum(np.abs(weights), axis=1), 5)`. -/
def weights_cash_of (weights : NMat) : List ℚ :=
  weights.map (fun row => 1 - round5 (nansumAbs row))

/-- Lines 156 and 161: prepend the ones column to `returns`, then overwrite
column 0 with `risk_free` (`returns[:, 0] = risk_free`); the two steps fuse to
prepending a `risk_free` cell to every row. -/
def adj_returns (returns : NMat) (risk_free : ℚ) : NMat :=
  returns.map (fun row => some risk_free :: row)

/-- Lines 157 and 159: prepend the zeros column to `weights`, then overwrite
column 0 with `weights_cash` (`weights[:, 0] = weights_cash`); the two steps
fuse to prepending each row's cash weight. -/
def adj_weights (weights : NMat) : NMat :=
  List.zipWith (fun c row => some c :: row) (weights_cash_of weights) weights

/-- `np.where(mat == mat, mat, d)`: replace every NaN by `d`. -/
def fillNaN (d : ℚ) (mat : NMat) : QMat :=
  mat.map (fun row => row.map (fun x => x.getD d))

/-- NaN replacement that keeps the `Option` type (used to state the NaN
robustness property about caller-side inputs). -/
def fillNaNOpt (d : ℚ) (mat : NMat) : NMat :=
  mat.map (fun row => row.map (fun x => some (x.getD d)))

/-- Line 164: the cleaned returns matrix fed to the inner loop. -/
def clean_returns (returns : NMat) (risk_free : ℚ) : QMat :=
  fillNaN 1 (adj_returns returns risk_free)

/-- Line 166: the cleaned weights matrix fed to the inner loop. -/
def clean_weights (weights : NMat) : QMat :=
  fillNaN 0 (adj_weights weights)

/-- Modelled from the spec: one period's gross growth factor for the whole
portfolio row, `1 + Σ_j weight[t,j] * (return[t,j] - 1)` over all `n` columns
(column 0 is the cash leg whose return cell was set to `risk_free`);
spec section 4.1 step 2. -/
def periodFactor (n : ℕ) (wrow rrow : List ℚ) : ℚ :=
  1 + ∑ j ∈ Finset.range n, wrow.getD j 0 * (rrow.getD j 1 - 1)

/-- Modelled from the spec: fund `k` rebalances at periods
`k, k + freq, k + 2*freq, ...` (spec section 3, "Fund"). -/
def activeAt (freq k t : ℕ) : Bool :=
  decide (k ≤ t) && (t - k) % freq == 0

/-- Modelled from the spec: equity of one fund after period `t`.  On a period
of the fund's cadence the running equity is multiplied by that period's
factor; off-cadence periods carry the equity forward unchanged (spec
section 4.1 steps 2-3). -/
def fundEquity (g : ℕ → ℚ) (act : ℕ → Bool) (e0 : ℚ) : ℕ → ℚ
  | 0 => if act 0 then e0 * g 0 else e0
  | t + 1 => if act (t + 1) then fundEquity g act e0 t * g (t + 1)
             else fundEquity g act e0 t

/-- Modelled from the spec: the inner loop `_sub_portfolio_returns(m, n,
weights, returns, funds, freq, init_cash)` from `alphainspect._nb`, whose
source file is not in the repository snapshot.  It returns the
`m × funds` matrix `out` with `out[t, k]` the equity of fund `k` after
period `t`; each fund starts from `init_cash / funds` (spec sections 3
and 4.1). -/
def sub_portfolio_returns (m n : ℕ) (weights returns : QMat)
    (funds freq : ℕ) (init_cash : ℚ) : QMat :=
  let g : ℕ → ℚ := fun t => periodFactor n (weights.getD t []) (returns.getD t [])
  (List.range m).map (fun t =>
    (List.range funds).map (fun k =>
      fundEquity g (activeAt freq k) (init_cash / (funds : ℚ)) t))

/-- `np.cumprod` helper carrying the running product. -/
def cumprodAux (a : ℚ) : List ℚ → List ℚ
  | [] => []
  | x :: xs => (a * x) :: cumprodAux (a * x) xs

/-- `np.cumprod`. -/
def cumprod (l : List ℚ) : List ℚ := cumprodAux 1 l

/-- Line 179: `(benchmark + 1).cumprod()`. -/
def cumprod1p (b : List ℚ) : List ℚ := cumprod (b.map (fun x => 1 + x))

/-- One row of `out.mean(axis=1)`. -/
def rowMean (row : List ℚ) : ℚ := row.sum / (row.length : ℚ)

/-- Lines 144-172 up to the inner-loop call: the `m × funds` matrix `out`. -/
def fund_curves (returns weights : NMat) (funds freq : ℕ)
    (init_cash risk_free : ℚ) : QMat :=
  let m := weights.length
  let wC := clean_weights weights
  let rC := clean_returns returns risk_free
  let n := (wC.headD []).length
  sub_portfolio_returns m n wC rC funds freq init_cash

/-- `out.mean(axis=1)`: the aggregated (no-benchmark) curve of line 176. -/
def mean_curve (returns weights : NMat) (funds freq : ℕ)
    (init_cash risk_free : ℚ) : List ℚ :=
  (fund_curves returns weights funds freq init_cash risk_free).map rowMean

/-- Result of `cumulative_returns`: either a single aggregated curve or the
per-fund matrix. -/
inductive CRResult
  | curve (c : List ℚ)
  | perFund (mat : QMat)
deriving DecidableEq

/-- `cumulative_returns` of `alphainspect/utils.py`, lines 93-181, for 2-D
inputs (the 1-D reshape of lines 145-148 only promotes vectors to one-column
matrices).  `Except.error` models the numpy exceptions that the call can
raise: the row-count check of `np.concatenate` (line 156) and the broadcast
requirement of the benchmark subtraction (line 179). -/
def cumulative_returns (returns weights : NMat) (funds freq : ℕ)
    (benchmark : Option (List ℚ)) (ret_mean : Bool)
    (init_cash risk_free : ℚ) : Except String CRResult :=
  let m := weights.length
  if returns.length = m then
    let out := fund_curves returns weights funds freq init_cash risk_free
    if ret_mean then
      match benchmark with
      | none => .ok (.curve (out.map rowMean))
      | some b =>
        if b.length = m then
          .ok (.curve (List.zipWith (fun x y => x - y) (out.map rowMean) (cumprod1p b)))
        else .error "ValueError: operands could not be broadcast together"
    else .ok (.perFund out)
  else
    .error "ValueError: all the input array dimensions except for the concatenation axis must match exactly"

instance : DecidableEq (Except String CRResult) := fun
  | .ok a, .ok b => decidable_of_iff (a = b) (by simp)
  | .ok _, .error _ => isFalse (by simp)
  | .error _, .ok _ => isFalse (by simp)
  | .error a, .error b => decidable_of_iff (a = b) (by simp)

/-- The reference curve, following the spec's words (section 8): for
`funds = 1` the accumulator must reduce to the plain single-portfolio
compounding curve `cumprod(1 + Σ_j weight_j * (return_j - 1))`, the sum
running over every column of the cash-adjusted cleaned matrices (so the cash
column contributes `weight_cash * (risk_free - 1)`), scaled by the starting
capital `init_cash`. -/
def spec_reference_curve (returns weights : NMat) (init_cash risk_free : ℚ) : List ℚ :=
  let W := clean_weights weights
  let R := clean_returns returns risk_free
  let factors := List.zipWith
    (fun wrow rrow => 1 + (List.zipWith (fun w r => w * (r - 1)) wrow rrow).sum) W R
  (cumprod factors).map (fun x => init_cash * x)

/-- A heap of numpy arrays: addresses are list indices, allocation appends a
fresh cell. -/
abbrev Heap := List NMat

/-- Allocate a fresh array, returning its address and the new heap. -/
def HAlloc (h : Heap) (v : NMat) : ℕ × Heap := (h.length, h ++ [v])

/-- Heap-level model of `cumulative_returns` (lines 144-181) making the
allocation behaviour of the numpy calls explicit.  `np.concatenate`
(lines 156-157) and `np.where` (lines 164, 166) allocate fresh arrays; the
assignments `weights[:, 0] = weights_cash` (line 159) and
`returns[:, 0] = risk_free` (line 161) are in-place writes, but they target
only the freshly concatenated arrays; the inner loop's `out` and the
aggregation of lines 173-181 are fresh allocations as well.  The caller's
matrices live at heap addresses `aR` (returns) and `aW` (weights); the
function returns the address of the output array, or `none` when the
concatenate `ValueError` aborts the call (in which case nothing was yet
allocated). -/
def cumulative_returns_heap (h : Heap) (aR aW : ℕ) (funds freq : ℕ)
    (benchmark : Option (List ℚ)) (ret_mean : Bool) (ic rf : ℚ) : Option ℕ × Heap :=
  let returns0 := h.getD aR []
  let weights0 := h.getD aW []
  let m := weights0.length
  if returns0.length = m then
    let wcash := weights_cash_of weights0
    let (aR1, h1) := HAlloc h (returns0.map (fun row => some (1 : ℚ) :: row))
    let (aW1, h2) := HAlloc h1 (weights0.map (fun row => some (0 : ℚ) :: row))
    let h3 := h2.set aW1 (List.zipWith (fun c row => some c :: row.tail) wcash (h2.getD aW1 []))
    let h4 := h3.set aR1 ((h3.getD aR1 []).map (fun row => some rf :: row.tail))
    let (aR2, h5) := HAlloc h4 ((h4.getD aR1 []).map (fun row => row.map (fun x => some (x.getD 1))))
    let (aW2, h6) := HAlloc h5 ((h5.getD aW1 []).map (fun row => row.map (fun x => some (x.getD 0))))
    let n := ((h6.getD aW2 []).headD []).length
    let out := sub_portfolio_returns m n (fillNaN 0 (h6.getD aW2 []))
      (fillNaN 1 (h6.getD aR2 [])) funds freq ic
    let (aOut, h7) := HAlloc h6 (out.map (fun row => row.map some))
    if ret_mean then
      match benchmark with
      | none =>
          let (aRes, h8) := HAlloc h7 [(out.map rowMean).map some]
          (some aRes, h8)
      | some b =>
          if b.length = m then
            let (aRes, h8) := HAlloc h7
              [(List.zipWith (fun x y => x - y) (out.map rowMean) (cumprod1p b)).map some]
            (some aRes, h8)
          else (none, h7)
    else (some aOut, h7)
  else (none, h)

/-! ### Helper lemmas -/

/-- Normal form of the cleaned weights matrix: each row is its cash weight
followed by the NaN-to-0 cleaned caller weights. -/
lemma clean_weights_eq (w : NMat) :
    clean_weights w
      = w.map (fun row => (1 - round5 (nansumAbs row)) :: row.map (fun x => x.getD 0)) := by
  induction w with
  | nil => rfl
  | cons row rest ih =>
    simp only [clean_weights, fillNaN, adj_weights, weights_cash_of, List.map_cons,
      List.zipWith_cons_cons, Option.getD_some] at ih ⊢
    rw [ih]

/-- Normal form of the cleaned returns matrix: each row is `risk_free`
followed by the NaN-to-1 cleaned caller returns. -/
lemma clean_returns_eq (r : NMat) (rf : ℚ) :
    clean_returns r rf = r.map (fun row => rf :: row.map (fun x => x.getD 1)) := by
  simp [clean_returns, fillNaN, adj_returns, List.map_map, Function.comp]

lemma fillNaNOpt_length (d : ℚ) (m : NMat) : (fillNaNOpt d m).length = m.length := by
  simp [fillNaNOpt]

lemma clean_weights_fill (w : NMat) : clean_weights (fillNaNOpt 0 w) = clean_weights w := by
  simp only [clean_weights_eq, fillNaNOpt, List.map_map]
  refine List.map_congr_left (fun a _ => ?_)
  simp [Function.comp_def, nansumAbs, List.map_map]

lemma clean_returns_fill (r : NMat) (rf : ℚ) :
    clean_returns (fillNaNOpt 1 r) rf = clean_returns r rf := by
  simp [clean_returns_eq, fillNaNOpt, List.map_map, Function.comp]

lemma fund_curves_fill (r w : NMat) (funds freq : ℕ) (ic rf : ℚ) :
    fund_curves (fillNaNOpt 1 r) (fillNaNOpt 0 w) funds freq ic rf
      = fund_curves r w funds freq ic rf := by
  simp [fund_curves, clean_weights_fill, clean_returns_fill, fillNaNOpt_length]

lemma getD_map_lt {α β : Type} (f : α → β) (l : List α) (t : ℕ) (d : α) (d' : β)
    (h : t < l.length) : (l.map f).getD t d' = f (l.getD t d) := by
  induction l generalizing t with
  | nil => simp at h
  | cons x xs ih =>
    cases t with
    | zero => simp
    | succ n =>
      simp only [List.map_cons, List.getD_cons_succ]
      exact ih n (by simpa using h)

/-- The distance from `x` to its ties-to-even rounding is at most `1/2`. -/
lemma abs_sub_roundTiesEven_le (x : ℚ) : |x - (roundTiesEven x : ℚ)| ≤ 1/2 := by
  have h0 : (0 : ℚ) ≤ x - (⌊x⌋ : ℚ) := sub_nonneg.2 (Int.floor_le x)
  have h1 : x - (⌊x⌋ : ℚ) < 1 := by
    have := Int.lt_floor_add_one x
    linarith
  by_cases ha : x - (⌊x⌋ : ℚ) < 1/2
  · rw [roundTiesEven, if_pos ha, abs_of_nonneg h0]
    linarith
  · by_cases hb : 1/2 < x - (⌊x⌋ : ℚ)
    · rw [roundTiesEven, if_neg ha, if_pos hb]
      push_cast
      rw [abs_of_nonpos (by linarith)]
      linarith
    · have heq : x - (⌊x⌋ : ℚ) = 1/2 := le_antisymm (not_lt.1 hb) (not_lt.1 ha)
      rw [roundTiesEven, if_neg ha, if_neg hb]
      by_cases hc : ⌊x⌋ % 2 = 0
      · rw [if_pos hc, abs_of_nonneg h0]
        linarith
      · rw [if_neg hc]
        push_cast
        rw [abs_of_nonpos (by linarith)]
        linarith

/-- `np.round(x, 5)` moves `x` by at most half of `10 ^ (-5)`. -/
lemma abs_sub_round5_le (x : ℚ) : |x - round5 x| ≤ 1/200000 := by
  have h := abs_sub_roundTiesEven_le (x * 100000)
  have hx : x - round5 x = (x * 100000 - (roundTiesEven (x * 100000) : ℚ)) / 100000 := by
    rw [round5]
    ring
  rw [hx, abs_div, abs_of_pos (show (0:ℚ) < 100000 by norm_num)]
  rw [div_le_iff₀ (show (0:ℚ) < 100000 by norm_num)]
  linarith

lemma headD_eq_getD_zero {α : Type} (l : List α) (d : α) : l.headD d = l.getD 0 d := by
  cases l <;> rfl

lemma clean_weights_length (w : NMat) : (clean_weights w).length = w.length := by
  simp [clean_weights_eq]

lemma clean_returns_length (r : NMat) (rf : ℚ) : (clean_returns r rf).length = r.length := by
  simp [clean_returns_eq]

lemma getD_zipWith_lt {α β γ : Type} (f : α → β → γ) :
    ∀ (l₁ : List α) (l₂ : List β) (i : ℕ) (d₁ : α) (d₂ : β) (d : γ),
      i < l₁.length → i < l₂.length →
      (List.zipWith f l₁ l₂).getD i d = f (l₁.getD i d₁) (l₂.getD i d₂)
  | [], _, i, _, _, _, h₁, _ => by simp at h₁
  | _ :: _, [], i, _, _, _, _, h₂ => by simp at h₂
  | x :: xs, y :: ys, 0, d₁, d₂, d, h₁, h₂ => by simp
  | x :: xs, y :: ys, i + 1, d₁, d₂, d, h₁, h₂ => by
    simp only [List.zipWith_cons_cons, List.getD_cons_succ]
    exact getD_zipWith_lt f xs ys i d₁ d₂ d (by simpa using h₁) (by simpa using h₂)

/-- A `Finset.range` sum of pointwise `getD` reads over two equal-length
lists is the sum of their `zipWith`. -/
lemma sum_range_getD_eq_zipWith_sum (f : ℚ → ℚ → ℚ) (da db : ℚ) :
    ∀ (a b : List ℚ) (n : ℕ), a.length = n → b.length = n →
      ∑ j ∈ Finset.range n, f (a.getD j da) (b.getD j db) = (List.zipWith f a b).sum
  | [], [], n, ha, _ => by subst ha; simp
  | [], _ :: _, n, ha, hb => by subst ha; simp at hb
  | _ :: _, [], n, ha, hb => by subst ha; simp at hb
  | x :: xs, y :: ys, n, ha, hb => by
    subst ha
    rw [List.length_cons, Finset.sum_range_succ']
    simp only [List.getD_cons_succ, List.getD_cons_zero, List.zipWith_cons_cons, List.sum_cons]
    rw [sum_range_getD_eq_zipWith_sum f da db xs ys xs.length rfl (by simpa using hb)]
    ring

lemma prod_range_getD_cons (x : ℚ) (xs : List ℚ) (t : ℕ) :
    ∏ s ∈ Finset.range (t + 2), (x :: xs).getD s 1
      = x * ∏ s ∈ Finset.range (t + 1), xs.getD s 1 := by
  rw [Finset.prod_range_succ']
  simp [mul_comm]

/-- `cumprodAux a l` lists the running products `a * l₀ * ... * lₜ`. -/
lemma cumprodAux_eq_map : ∀ (l : List ℚ) (a : ℚ),
    cumprodAux a l
      = (List.range l.length).map (fun t => a * ∏ s ∈ Finset.range (t + 1), l.getD s 1)
  | [], _ => rfl
  | x :: xs, a => by
    rw [cumprodAux, cumprodAux_eq_map xs (a * x)]
    rw [List.length_cons, List.range_succ_eq_map, List.map_cons, List.map_map]
    congr 1
    · simp
    · refine List.map_congr_left (fun t _ => ?_)
      simp only [Function.comp_apply, prod_range_getD_cons]
      ring

lemma rowMean_single (x : ℚ) : rowMean [x] = x := by
  simp [rowMean]

/-- When every period is on the fund's cadence, the equity is the plain
compounded product of the period factors. -/
lemma fundEquity_all_active (g : ℕ → ℚ) (act : ℕ → Bool) (e0 : ℚ)
    (hact : ∀ s, act s = true) :
    ∀ t, fundEquity g act e0 t = e0 * ∏ s ∈ Finset.range (t + 1), g s
  | 0 => by simp [fundEquity, hact 0]
  | t + 1 => by
    rw [fundEquity, if_pos (hact (t + 1)), fundEquity_all_active g act e0 hact t,
      mul_assoc, ← Finset.prod_range_succ]

/-- For `funds = 1` and `freq = 1` the aggregated curve is the plain
compounding reference curve of the spec, provided the two matrices are
rectangular with the same shape. -/
lemma mean_curve_funds_one (returns weights : NMat) (ic rf : ℚ) (n₀ : ℕ)
    (hs : returns.length = weights.length)
    (hwn : ∀ t, t < weights.length → (weights.getD t []).length = n₀)
    (hrn : ∀ t, t < returns.length → (returns.getD t []).length = n₀) :
    mean_curve returns weights 1 1 ic rf = spec_reference_curve returns weights ic rf := by
  have hact : ∀ s, activeAt 1 0 s = true := fun s => by simp [activeAt, Nat.mod_one]
  have hWlen : (clean_weights weights).length = weights.length := clean_weights_length weights
  have hRlen : (clean_returns returns rf).length = returns.length := clean_returns_length returns rf
  have hr1 : List.range 1 = [0] := rfl
  unfold mean_curve fund_curves sub_portfolio_returns spec_reference_curve cumprod
  simp only [cumprodAux_eq_map, hr1, List.map_cons, List.map_nil, List.map_map,
    List.length_zipWith, hWlen, hRlen, hs, min_self]
  refine List.map_congr_left (fun t ht => ?_)
  have htm : t < weights.length := List.mem_range.1 ht
  simp only [Function.comp_apply, rowMean_single, Nat.cast_one, div_one,
    fundEquity_all_active _ _ _ hact, one_mul]
  refine congrArg (ic * ·) (Finset.prod_congr rfl (fun s hsmem => ?_))
  have hsm : s < weights.length := lt_of_lt_of_le (Finset.mem_range.1 hsmem) htm
  have hwrow : (clean_weights weights).getD s []
      = (1 - round5 (nansumAbs (weights.getD s []))) :: (weights.getD s []).map (fun x => x.getD 0) := by
    rw [clean_weights_eq, getD_map_lt _ _ _ [] _ hsm]
  have hrrow : (clean_returns returns rf).getD s []
      = rf :: (returns.getD s []).map (fun x => x.getD 1) := by
    rw [clean_returns_eq, getD_map_lt _ _ _ [] _ (hs ▸ hsm)]
  have hwlen : ((clean_weights weights).getD s []).length = n₀ + 1 := by
    rw [hwrow, List.length_cons, List.length_map, hwn s hsm]
  have hrlen : ((clean_returns returns rf).getD s []).length = n₀ + 1 := by
    rw [hrrow, List.length_cons, List.length_map, hrn s (hs ▸ hsm)]
  have hn : ((clean_weights weights).headD []).length = n₀ + 1 := by
    rw [headD_eq_getD_zero, clean_weights_eq, getD_map_lt _ _ _ [] _ (by omega : 0 < weights.length),
      List.length_cons, List.length_map, hwn 0 (by omega)]
  rw [getD_zipWith_lt _ _ _ _ [] [] _ (by omega) (by omega)]
  rw [periodFactor, hn]
  rw [sum_range_getD_eq_zipWith_sum (fun w r => w * (r - 1)) 0 1 _ _ (n₀ + 1) hwlen hrlen]

/-- Addresses below the pre-call heap bound are untouched by the run: every
in-place write of the modelled numpy code targets a freshly allocated
array. -/
lemma cumulative_returns_heap_frame (h : Heap) (aR aW : ℕ) (funds freq : ℕ)
    (benchmark : Option (List ℚ)) (ret_mean : Bool) (ic rf : ℚ) (i : ℕ) (hi : i < h.length) :
    (cumulative_returns_heap h aR aW funds freq benchmark ret_mean ic rf).2[i]? = h[i]? := by
  unfold cumulative_returns_heap HAlloc
  by_cases hg : (h.getD aR []).length = (h.getD aW []).length
  · rw [if_pos hg]
    cases ret_mean with
    | false => simp [hi, List.getElem?_append_left]
    | true =>
      cases benchmark with
      | none => simp [hi, List.getElem?_append_left]
      | some b =>
        by_cases hb : b.length = (h[aW]?.getD []).length
        · simp [hi, hb, List.getElem?_append_left]
        · simp [hi, hb, List.getElem?_append_left]
  · rw [if_neg hg]

/-- The returned output address, when the call succeeds, is beyond every
pre-call address: the output array is freshly allocated. -/
lemma cumulative_returns_heap_fresh (h : Heap) (aR aW : ℕ) (funds freq : ℕ)
    (benchmark : Option (List ℚ)) (ret_mean : Bool) (ic rf : ℚ) (a : ℕ)
    (ha : (cumulative_returns_heap h aR aW funds freq benchmark ret_mean ic rf).1 = some a) :
    h.length ≤ a := by
  unfold cumulative_returns_heap HAlloc at ha
  by_cases hg : (h.getD aR []).length = (h.getD aW []).length
  · rw [if_pos hg] at ha
    cases ret_mean with
    | false => simp at ha; omega
    | true =>
      cases benchmark with
      | none => simp at ha; omega
      | some b =>
        by_cases hb : b.length = (h[aW]?.getD []).length
        · simp [hb] at ha; omega
        · simp [hb] at ha
  · rw [if_neg hg] at ha
    simp at ha

/-- C2: the NaN policy is a single up-front substitution.  Replacing every
NaN of `returns` by `1.0` and every NaN of `weights` by `0.0` before the call
leaves the result unchanged, for every argument combination — so the whole
computation (cash-weight `nansum` included) behaves exactly as if it consumed
the cleaned matrices, all funds see the same cleaned data, and no input NaN
can reach the output curve (whose model type `List ℚ` has no NaN at all). -/
theorem C2_nan_substituted_once_up_front (returns weights : NMat) (funds freq : ℕ)
    (benchmark : Option (List ℚ)) (ret_mean : Bool) (init_cash risk_free : ℚ) :
    cumulative_returns returns weights funds freq benchmark ret_mean init_cash risk_free
      = cumulative_returns (fillNaNOpt 1 returns) (fillNaNOpt 0 weights)
          funds freq benchmark ret_mean init_cash risk_free := by
  simp [cumulative_returns, fillNaNOpt_length, fund_curves_fill]

/-- C3: the injected cash column.  For every in-range row `t`, the cleaned
weights row starts with `1 - round(nansum(|weights[t]|), 5)`, the cleaned
returns row starts with `risk_free`, and the cash weight plus the sum of
absolute real-asset weights differs from 1 by at most `1e-5`. -/
theorem C3_cash_column (weights returns : NMat) (risk_free : ℚ) (t : ℕ)
    (hw : t < weights.length) (hr : t < returns.length) :
    ((clean_weights weights).getD t []).getD 0 0
        = 1 - round5 (nansumAbs (weights.getD t [])) ∧
    ((clean_returns returns risk_free).getD t []).getD 0 1 = risk_free ∧
    |((clean_weights weights).getD t []).getD 0 0
        + nansumAbs (weights.getD t []) - 1| ≤ 1/100000 := by
  have hwrow :
      ((clean_weights weights).getD t []).getD 0 0
        = 1 - round5 (nansumAbs (weights.getD t [])) := by
    rw [clean_weights_eq, getD_map_lt _ _ _ [] _ hw, List.getD_cons_zero]
  refine ⟨hwrow, ?_, ?_⟩
  · rw [clean_returns_eq, getD_map_lt _ _ _ [] _ hr, List.getD_cons_zero]
  · rw [hwrow]
    have h := abs_sub_round5_le (nansumAbs (weights.getD t []))
    have hrw : 1 - round5 (nansumAbs (weights.getD t [])) + nansumAbs (weights.getD t []) - 1
        = nansumAbs (weights.getD t []) - round5 (nansumAbs (weights.getD t [])) := by ring
    rw [hrw]
    exact le_trans h (by norm_num)

/-- Witness for C3: a concrete one-asset row with weight `1/2`. -/
theorem C3_cash_column_witness :
    (0 : ℕ) < ([[some (1/2)]] : NMat).length ∧ (0 : ℕ) < ([[some (11/10)]] : NMat).length ∧
    (((clean_weights [[some (1/2)]]).getD 0 []).getD 0 0
        = 1 - round5 (nansumAbs (([[some (1/2)]] : NMat).getD 0 [])) ∧
     ((clean_returns [[some (11/10)]] (3/2)).getD 0 []).getD 0 1 = 3/2 ∧
     |((clean_weights [[some (1/2)]]).getD 0 []).getD 0 0
        + nansumAbs (([[some (1/2)]] : NMat).getD 0 []) - 1| ≤ 1/100000) :=
  ⟨by decide, by decide,
    C3_cash_column [[some (1/2)]] [[some (11/10)]] (3/2) 0 (by decide) (by decide)⟩

/-- C7: for weights `[[1],[0],[0]]`, returns `[[1.10],[1.00],[1.00]]`,
`funds = 1`, `freq = 1`, `init_cash = 1.0`, `risk_free = 1.0`, the aggregated
output curve is `[1.10, 1.10, 1.10]` (exactly, in the rational model): the
period-0 gain is locked in and held flat, the position closing to cash in the
later periods. -/
theorem C7_concrete_scenario :
    cumulative_returns [[some (11/10)], [some 1], [some 1]]
      [[some 1], [some 0], [some 0]] 1 1 none true 1 1
      = .ok (.curve [11/10, 11/10, 11/10]) := by
  simp [cumulative_returns, fund_curves, clean_weights, clean_returns, fillNaN, adj_weights,
    adj_returns, weights_cash_of, nansumAbs, round5, roundTiesEven, sub_portfolio_returns,
    periodFactor, activeAt, fundEquity, rowMean, List.range_succ, Finset.sum_range_succ]

/-- C8: `cumulative_returns` is deterministic — it is embedded as a pure
function of its eight arguments, so two invocations on identical inputs are
definitionally equal and there is no hidden state to carry across calls. -/
theorem C8_deterministic (returns weights : NMat) (funds freq : ℕ)
    (benchmark : Option (List ℚ)) (ret_mean : Bool) (init_cash risk_free : ℚ) :
    cumulative_returns returns weights funds freq benchmark ret_mean init_cash risk_free
      = cumulative_returns returns weights funds freq benchmark ret_mean init_cash risk_free := rfl

/-- C10: with `ret_mean = False` the benchmark argument is dead: the returned
per-fund matrix is the same for any two benchmark values (including `None`),
because line 181 returns `out` without ever touching `benchmark`. -/
theorem C10_benchmark_ignored_when_not_mean (returns weights : NMat) (funds freq : ℕ)
    (b1 b2 : Option (List ℚ)) (init_cash risk_free : ℚ) :
    cumulative_returns returns weights funds freq b1 false init_cash risk_free
      = cumulative_returns returns weights funds freq b2 false init_cash risk_free := by
  by_cases h : returns.length = weights.length <;> simp [cumulative_returns, h]

/-- C1 (amended): for `funds = 1` and `freq = 1` (so that every period is on
the single fund's cadence), the aggregated no-benchmark output is exactly the
spec's reference curve `init_cash * cumprod(1 + Σ_j weight[t,j] *
(return[t,j] - 1))` over the cash-adjusted cleaned matrices, for every
rectangular same-shape input pair.  With `freq > 1` the claim fails, because
off-cadence periods hold the fund's equity instead of compounding it. -/
theorem C1_funds_one_reduces_to_reference (returns weights : NMat)
    (init_cash risk_free : ℚ) (n₀ : ℕ)
    (hs : returns.length = weights.length)
    (hwn : ∀ t, t < weights.length → (weights.getD t []).length = n₀)
    (hrn : ∀ t, t < returns.length → (returns.getD t []).length = n₀) :
    cumulative_returns returns weights 1 1 none true init_cash risk_free
      = .ok (.curve (spec_reference_curve returns weights init_cash risk_free)) := by
  have h := mean_curve_funds_one returns weights init_cash risk_free n₀ hs hwn hrn
  unfold mean_curve at h
  simp [cumulative_returns, hs, h]

/-- Witness for C1: a two-period, one-asset portfolio with `funds = 1`,
`freq = 1`. -/
theorem C1_funds_one_reduces_to_reference_witness :
    cumulative_returns [[some (11/10)], [some (6/5)]] [[some 1], [some (1/2)]] 1 1 none true 1 1
      = .ok (.curve (spec_reference_curve [[some (11/10)], [some (6/5)]]
          [[some 1], [some (1/2)]] 1 1)) :=
  C1_funds_one_reduces_to_reference [[some (11/10)], [some (6/5)]] [[some 1], [some (1/2)]]
    1 1 1 (by decide) (by decide) (by decide)

/-- Counterexample to C1 as stated: with `funds = 1` but the default
`freq = 3`, period 1 is off the fund's cadence, the equity is held at `1.10`
instead of compounding to `1.32`, and the output differs from the reference
curve. -/
theorem C1_counterexample_default_freq :
    cumulative_returns [[some (11/10)], [some (6/5)]] [[some 1], [some 1]] 1 3 none true 1 1
      ≠ .ok (.curve (spec_reference_curve [[some (11/10)], [some (6/5)]]
          [[some 1], [some 1]] 1 1)) := by
  have h1 : cumulative_returns [[some (11/10)], [some (6/5)]] [[some 1], [some 1]]
      1 3 none true 1 1 = .ok (.curve [11/10, 11/10]) := by
    simp [cumulative_returns, fund_curves, clean_weights, clean_returns, fillNaN, adj_weights,
      adj_returns, weights_cash_of, nansumAbs, round5, roundTiesEven, sub_portfolio_returns,
      periodFactor, activeAt, fundEquity, rowMean, List.range_succ, Finset.sum_range_succ]
  have h2 : spec_reference_curve [[some (11/10)], [some (6/5)]] [[some 1], [some 1]] 1 1
      = [11/10, 33/25] := by
    simp [spec_reference_curve, clean_weights, clean_returns, fillNaN, adj_weights, adj_returns,
      weights_cash_of, nansumAbs, round5, roundTiesEven, cumprod, cumprodAux]
    norm_num
  rw [h1, h2]
  intro hcon
  simp only [Except.ok.injEq, CRResult.curve.injEq, List.cons.injEq] at hcon
  exact absurd hcon.2.1 (by norm_num)

/-- C4: with aggregation enabled and a benchmark of matching length, the
result is exactly the no-benchmark aggregated curve minus
`(benchmark + 1).cumprod()`, elementwise (line 179 versus line 176). -/
theorem C4_benchmark_excess (returns weights : NMat) (funds freq : ℕ) (b : List ℚ)
    (init_cash risk_free : ℚ)
    (hs : returns.length = weights.length) (hb : b.length = weights.length) :
    cumulative_returns returns weights funds freq (some b) true init_cash risk_free
      = .ok (.curve (List.zipWith (fun x y => x - y)
          (mean_curve returns weights funds freq init_cash risk_free) (cumprod1p b))) ∧
    cumulative_returns returns weights funds freq none true init_cash risk_free
      = .ok (.curve (mean_curve returns weights funds freq init_cash risk_free)) := by
  constructor <;> simp [cumulative_returns, mean_curve, hs, hb]

/-- Witness for C4: two funds, two periods, benchmark `[1/10, 1/5]`. -/
theorem C4_benchmark_excess_witness :
    ([[some (11/10)], [some (6/5)]] : NMat).length = ([[some 1], [some (1/2)]] : NMat).length ∧
    ([(1:ℚ)/10, 1/5] : List ℚ).length = ([[some 1], [some (1/2)]] : NMat).length ∧
    (cumulative_returns [[some (11/10)], [some (6/5)]] [[some 1], [some (1/2)]] 2 2
        (some [1/10, 1/5]) true 1 1
      = .ok (.curve (List.zipWith (fun x y => x - y)
          (mean_curve [[some (11/10)], [some (6/5)]] [[some 1], [some (1/2)]] 2 2 1 1)
          (cumprod1p [1/10, 1/5]))) ∧
     cumulative_returns [[some (11/10)], [some (6/5)]] [[some 1], [some (1/2)]] 2 2
        none true 1 1
      = .ok (.curve (mean_curve [[some (11/10)], [some (6/5)]] [[some 1], [some (1/2)]] 2 2 1 1))) :=
  ⟨by decide, by decide,
    C4_benchmark_excess [[some (11/10)], [some (6/5)]] [[some 1], [some (1/2)]] 2 2
      [1/10, 1/5] 1 1 (by decide) (by decide)⟩

/-- C5 (amended): `cumulative_returns` performs no eager shape validation.
A row-count mismatch does fail before any fund computation, but only as the
generic `ValueError` of `np.concatenate` at line 156, not as a dedicated
`ShapeMismatch` check at call entry. -/
theorem C5_row_mismatch_generic_error (returns weights : NMat) (funds freq : ℕ)
    (benchmark : Option (List ℚ)) (ret_mean : Bool) (init_cash risk_free : ℚ)
    (h : returns.length ≠ weights.length) :
    cumulative_returns returns weights funds freq benchmark ret_mean init_cash risk_free
      = .error "ValueError: all the input array dimensions except for the concatenation axis must match exactly" := by
  simp [cumulative_returns, h]

/-- Witness for C5: a concrete row-count mismatch (2 rows vs 1 row). -/
theorem C5_row_mismatch_generic_error_witness :
    ([[some (11/10)], [some 1]] : NMat).length ≠ ([[some 1]] : NMat).length ∧
    cumulative_returns [[some (11/10)], [some 1]] [[some 1]] 1 1 none true 1 1
      = .error "ValueError: all the input array dimensions except for the concatenation axis must match exactly" :=
  ⟨by decide, C5_row_mismatch_generic_error [[some (11/10)], [some 1]] [[some 1]] 1 1 none true 1 1 (by decide)⟩

/-- Counterexample to C5 as stated: a returns matrix with one extra column
(shapes disagree in column count) is accepted silently — the call returns a
normal curve instead of failing with a `ShapeMismatch` error, the extra
return column being ignored by the inner loop. -/
theorem C5_counterexample_extra_column_accepted :
    cumulative_returns [[some (11/10), some (1/2)]] [[some 1]] 1 1 none true 1 1
      = .ok (.curve [11/10]) := by
  simp [cumulative_returns, fund_curves, clean_weights, clean_returns, fillNaN, adj_weights,
    adj_returns, weights_cash_of, nansumAbs, round5, roundTiesEven, sub_portfolio_returns,
    periodFactor, activeAt, fundEquity, rowMean, List.range_succ, Finset.sum_range_succ]

/-- C6 (amended): `cumulative_returns` performs no validation of `funds` or
`freq`.  With matching row counts, no benchmark, and at least one fund, the
call completes normally for every `freq`, including `freq = 0` — no
`InvalidParameter` failure exists anywhere in the function.  (`funds = 0` is
excluded only because the inner loop's `init_cash / funds` then divides by
zero, whose IEEE outcome the rational model does not represent.) -/
theorem C6_no_parameter_validation (returns weights : NMat) (funds freq : ℕ)
    (ret_mean : Bool) (init_cash risk_free : ℚ)
    (hs : returns.length = weights.length) (hf : 1 ≤ funds) :
    (cumulative_returns returns weights funds freq none ret_mean init_cash risk_free).isOk = true := by
  cases ret_mean <;> simp [cumulative_returns, hs, Except.isOk, Except.toBool]

/-- Witness for C6: the amended theorem applied at `freq = 0`. -/
theorem C6_no_parameter_validation_witness :
    ([[some (11/10)]] : NMat).length = ([[some 1]] : NMat).length ∧ 1 ≤ 1 ∧
    (cumulative_returns [[some (11/10)]] [[some 1]] 1 0 none true 1 1).isOk = true :=
  ⟨by decide, by decide,
    C6_no_parameter_validation [[some (11/10)]] [[some 1]] 1 0 true 1 1 (by decide) (by decide)⟩

/-- Counterexample to C6 as stated: a call with `freq = 0 < 1` does not fail
with an `InvalidParameter` error — under the spec-modelled inner loop it
completes and returns the curve `[1.10]`. -/
theorem C6_counterexample_freq_zero_returns_ok :
    cumulative_returns [[some (11/10)]] [[some 1]] 1 0 none true 1 1
      = .ok (.curve [11/10]) := by
  simp [cumulative_returns, fund_curves, clean_weights, clean_returns, fillNaN, adj_weights,
    adj_returns, weights_cash_of, nansumAbs, round5, roundTiesEven, sub_portfolio_returns,
    periodFactor, activeAt, fundEquity, rowMean, List.range_succ, Finset.sum_range_succ]

/-- C9: frame property of `cumulative_returns`, over the heap model of its
numpy allocation behaviour.  For every initial heap and every pair of valid
caller addresses, the caller's returns and weights arrays are unchanged after
the call (the cash-column injection, the risk-free overwrite and the NaN
substitution hit only freshly concatenated or freshly allocated copies), and
the output address, when the call succeeds, is a fresh address beyond every
pre-call cell. -/
theorem C9_caller_arrays_unchanged (h : Heap) (aR aW : ℕ) (funds freq : ℕ)
    (benchmark : Option (List ℚ)) (ret_mean : Bool) (ic rf : ℚ)
    (haR : aR < h.length) (haW : aW < h.length) :
    (cumulative_returns_heap h aR aW funds freq benchmark ret_mean ic rf).2[aR]? = h[aR]? ∧
    (cumulative_returns_heap h aR aW funds freq benchmark ret_mean ic rf).2[aW]? = h[aW]? ∧
    ∀ a, (cumulative_returns_heap h aR aW funds freq benchmark ret_mean ic rf).1 = some a →
      h.length ≤ a :=
  ⟨cumulative_returns_heap_frame h aR aW funds freq benchmark ret_mean ic rf aR haR,
   cumulative_returns_heap_frame h aR aW funds freq benchmark ret_mean ic rf aW haW,
   fun a ha => cumulative_returns_heap_fresh h aR aW funds freq benchmark ret_mean ic rf a ha⟩

/-- Witness for C9: a two-cell heap holding a one-period returns matrix at
address 0 and a weights matrix at address 1, with the freshness conjunct
instantiated at the actual output address 7. -/
theorem C9_caller_arrays_unchanged_witness :
    (cumulative_returns_heap [[[some (11/10)]], [[some 1]]] 0 1 1 1 none true 1 1).2[0]?
        = ([[[some (11/10)]], [[some 1]]] : Heap)[0]? ∧
    (cumulative_returns_heap [[[some (11/10)]], [[some 1]]] 0 1 1 1 none true 1 1).2[1]?
        = ([[[some (11/10)]], [[some 1]]] : Heap)[1]? ∧
    ((cumulative_returns_heap [[[some (11/10)]], [[some 1]]] 0 1 1 1 none true 1 1).1 = some 7 →
      ([[[some (11/10)]], [[some 1]]] : Heap).length ≤ 7) :=
  ⟨(C9_caller_arrays_unchanged [[[some (11/10)]], [[some 1]]] 0 1 1 1 none true 1 1
      (by decide) (by decide)).1,
   (C9_caller_arrays_unchanged [[[some (11/10)]], [[some 1]]] 0 1 1 1 none true 1 1
      (by decide) (by decide)).2.1,
   (C9_caller_arrays_unchanged [[[some (11/10)]], [[some 1]]] 0 1 1 1 none true 1 1
      (by decide) (by decide)).2.2 7⟩

end AlphaInspect
